import Mathlib

/-
Verification of the coachable-course-agent repository's specification.

The repository is a feedback-aware course recommendation agent: a
profile-builder matches free-text skills against the ESCO taxonomy via
embedding similarity, a retrieval step pulls top-N similar courses from a
vector store, an LLM chain justifies and ranks a batch, and structured user
feedback is appended to a per-user JSON profile under data/memory, shaping
later batches.  The Python package implementing the agent
(coachable_course_agent/memory_store.py, feedback_processor.py,
vector_store.py, justifier_chain.py, linkedin_tools.py, and app.py's
GradioOutputManager) is not available here; those operations are modelled
from the specification and the repository's documentation
(profile_and_recommendation_demo.ipynb, instructions.md,
GRADIO_OUTPUT_MANAGER.md).  pipeline.sh is available and is embedded
directly from its source.
-/

/-- Modelled from the spec: an ESCO skill concept as stored in a user
profile, carrying `conceptUri` and `preferredLabel` (plus a description),
as shown in the saved `data/memory/{user_id}.json` files. -/
structure Skill where
  conceptUri : String
  preferredLabel : String
  description : String
deriving DecidableEq

/-- Modelled from the spec: the `preferences` block of a user profile
(`style`, `format`, `avoid_styles`), as shown in the saved profile JSON. -/
structure Preferences where
  style : List String
  format : List String
  avoid_styles : List String
deriving DecidableEq

/-- Modelled from the spec: one structured entry of a profile's
`feedback_log` — course id, feedback type, reason and timestamp. -/
structure FeedbackEntry where
  course_id : String
  feedback_type : String
  reason : String
  timestamp : String
deriving DecidableEq

/-- Modelled from the spec: a user profile as persisted under
`data/memory/{user_id}.json`: user id, goal, known and missing ESCO
skills, preferences and the feedback log. -/
structure UserProfile where
  user_id : String
  goal : String
  known_skills : List Skill
  missing_skills : List Skill
  preferences : Preferences
  feedback_log : List FeedbackEntry
deriving DecidableEq

/-- Modelled from the spec: a course record of the course embedding
store (course id, title, description). -/
structure Course where
  course_id : String
  title : String
  description : String
deriving DecidableEq

/-- Modelled from the spec: one item returned by the justification chain:
a course drawn from the candidates together with a textual
justification. -/
structure Recommendation where
  course_id : String
  title : String
  justification : String
deriving DecidableEq

/-- Modelled from the spec: the local file `data/memory/{user_id}.json`
holding a user's profile. -/
def profile_path (user_id : String) : String :=
  "data/memory/" ++ user_id ++ ".json"

/-- Modelled from the spec: the local filesystem holding the profile
files, abstracting JSON serialization: a path maps to the profile stored
there, if any.  There is no other profile storage (no central or external
database). -/
def MemoryFS : Type := String → Option UserProfile

/-- Modelled from the spec: `memory_store.load_user_profile` (module
coachable_course_agent/memory_store.py, not under src/) reads the user's
profile from `data/memory/{user_id}.json`. -/
def load_user_profile (fs : MemoryFS) (user_id : String) : Option UserProfile :=
  fs (profile_path user_id)

/-- Modelled from the spec: saving a user profile writes only the file
`data/memory/{user_id}.json`. -/
def save_user_profile (fs : MemoryFS) (user_id : String) (p : UserProfile) : MemoryFS :=
  fun path => if path = profile_path user_id then some p else fs path

/-- Modelled from the spec: `feedback_processor.process_feedback` (module
coachable_course_agent/feedback_processor.py, not under src/) loads the
user's profile, appends one structured entry (course id, feedback type,
reason, timestamp) to its `feedback_log`, leaves every other field alone,
and saves the profile back to the user's file.  The timestamp is passed
explicitly since wall-clock time is external input. -/
def process_feedback (fs : MemoryFS)
    (user_id course_id feedback_type reason timestamp : String) : MemoryFS :=
  match load_user_profile fs user_id with
  | some profile =>
      save_user_profile fs user_id
        { profile with
          feedback_log := profile.feedback_log ++
            [{ course_id := course_id, feedback_type := feedback_type,
               reason := reason, timestamp := timestamp }] }
  | none => fs

/-- One `process_feedback` call of a refinement cycle, bundled as data so
that whole cycles can be replayed. -/
structure FeedbackStep where
  user_id : String
  course_id : String
  feedback_type : String
  reason : String
  timestamp : String

/-- Replay a sequence of feedback steps (the profile mutations of one or
more refinement cycles) against the memory filesystem. -/
def apply_feedback_steps (fs : MemoryFS) : List FeedbackStep → MemoryFS
  | [] => fs
  | s :: rest =>
      apply_feedback_steps
        (process_feedback fs s.user_id s.course_id s.feedback_type s.reason s.timestamp) rest

/-- The feedback log currently stored for a user (empty if no profile
file exists). -/
def profile_log (fs : MemoryFS) (user_id : String) : List FeedbackEntry :=
  match load_user_profile fs user_id with
  | some p => p.feedback_log
  | none => []

/-- Ranking relation used for similarity search: pairs tagged with their
similarity score, higher scores first. -/
def descFst {α : Type} : (Int × α) → (Int × α) → Prop := fun p q => q.1 ≤ p.1

instance {α : Type} : DecidableRel (@descFst α) :=
  fun p q => inferInstanceAs (Decidable (q.1 ≤ p.1))

instance {α : Type} : IsTotal (Int × α) descFst := ⟨fun p q => le_total q.1 p.1⟩

instance {α : Type} : IsTrans (Int × α) descFst := ⟨fun _ _ _ h1 h2 => le_trans h2 h1⟩

/-- Order a list by decreasing score: tag each element with its score,
sort with higher scores first, and drop the tags. -/
def rank_by {α : Type} (score : α → Int) (l : List α) : List α :=
  ((l.map fun a => (score a, a)).insertionSort descFst).map Prod.snd

/-- Modelled from the spec: `vector_store.query_similar_courses` (module
coachable_course_agent/vector_store.py, not under src/) performs a
nearest-neighbor lookup in the course embedding store: the stored courses
ordered by decreasing embedding similarity `sim` between course and the
profile-derived query, truncated to the top `top_n`. -/
def query_similar_courses (sim : Course → UserProfile → Int)
    (courses_collection : List Course) (profile : UserProfile) (top_n : Nat) : List Course :=
  (rank_by (fun c => sim c profile) courses_collection).take top_n

/-- Modelled from the spec: matching one free-text skill string against
the ESCO taxonomy store by embedding similarity `skill_sim`, returning
the closest taxonomy concept (none only when the taxonomy is empty). -/
def match_skill (skill_sim : String → Skill → Int)
    (taxonomy : List Skill) (text : String) : Option Skill :=
  (rank_by (skill_sim text) taxonomy).head?

/-- Modelled from the spec: the profile-builder agent (module
coachable_course_agent/linkedin_tools.py, not under src/) turns free-text
skill strings extracted by the LLM into ESCO concepts by
embedding-similarity matching against the taxonomy store, and records
only the matched concepts in the saved profile. -/
def build_user_profile (skill_sim : String → Skill → Int) (taxonomy : List Skill)
    (user_id goal : String) (known_texts missing_texts : List String)
    (prefs : Preferences) : UserProfile :=
  { user_id := user_id
    goal := goal
    known_skills := known_texts.filterMap (match_skill skill_sim taxonomy)
    missing_skills := missing_texts.filterMap (match_skill skill_sim taxonomy)
    preferences := prefs
    feedback_log := [] }

/-- Keep, in the LLM's ranking order, the first occurrence of each
candidate course the LLM names, paired with its justification; ids not
in the candidate list are dropped. -/
def select_ranked : List Course → List (String × String) → List Recommendation
  | _, [] => []
  | courses, (cid, just) :: rest =>
    match courses.find? (fun c => c.course_id == cid) with
    | some c =>
        { course_id := c.course_id, title := c.title, justification := just } ::
          select_ranked (courses.filter fun c2 => !(c2.course_id == cid)) rest
    | none => select_ranked courses rest

/-- Modelled from the spec: `justifier_chain.justify_recommendations`
(module coachable_course_agent/justifier_chain.py, not under src/): the
LLM chain is given the profile and the retrieved candidates and returns a
ranked list of (course id, justification) pairs — abstracted as the
oracle `llm` — from which the chain assembles a ranked, explained subset
of the candidates. -/
def justify_recommendations (llm : UserProfile → List Course → List (String × String))
    (profile : UserProfile) (retrieved_courses : List Course) : List Recommendation :=
  select_ranked retrieved_courses (llm profile retrieved_courses)

/-- Modelled from the spec: the state of one interactive session — the
local profile storage plus the recommendations of the current batch. -/
structure Session where
  fs : MemoryFS
  recommendations : List Recommendation

/-- Modelled from the spec: producing a batch — reload the profile, run
retrieval and justification, and replace the displayed batch.  The
profile storage is not touched. -/
def run_batch (sim : Course → UserProfile → Int)
    (llm : UserProfile → List Course → List (String × String))
    (courses_collection : List Course) (user_id : String) (top_n : Nat)
    (s : Session) : Session :=
  match load_user_profile s.fs user_id with
  | some profile =>
      let retrieved := query_similar_courses sim courses_collection profile top_n
      { s with recommendations := justify_recommendations llm profile retrieved }
  | none => { s with recommendations := [] }

/-- Modelled from the spec: collecting feedback on one recommendation of
the current batch — the profile is mutated through `process_feedback`;
the displayed batch is left as it is. -/
def give_feedback (user_id course_id feedback_type reason timestamp : String)
    (s : Session) : Session :=
  { s with fs := process_feedback s.fs user_id course_id feedback_type reason timestamp }

/-- Modelled from the spec: `GradioOutputManager` (defined alongside
app.py, not under src/; behavior follows GRADIO_OUTPUT_MANAGER.md).  It
holds the schema of output names given at construction and, for each
name, the value set for it so far (`none` when unset). -/
structure GradioOutputManager (α : Type) where
  output_names : List String
  values : List (String × Option α)
deriving DecidableEq

/-- Modelled from the spec: the constructor — every schema name starts
out unset. -/
def GradioOutputManager.init {α : Type} (output_names : List String) :
    GradioOutputManager α :=
  { output_names := output_names, values := output_names.map fun n => (n, none) }

/-- Modelled from the spec: `set(name, value)` raises `ValueError` when
`name` is not in the schema (embedded as `Except.error`; the manager is
returned unmodified only through the `ok` branch) and otherwise updates
exactly the slot for `name`. -/
def GradioOutputManager.set {α : Type} (m : GradioOutputManager α)
    (name : String) (value : α) : Except String (GradioOutputManager α) :=
  if name ∈ m.output_names then
    Except.ok
      { m with values := m.values.map fun p => if p.1 = name then (p.1, some value) else p }
  else
    Except.error ("Unknown output name: " ++ name)

/-- Modelled from the spec: `set_multiple(**kwargs)` sets each keyword in
turn through `set`, propagating the first `ValueError`. -/
def GradioOutputManager.set_multiple {α : Type} (m : GradioOutputManager α) :
    List (String × α) → Except String (GradioOutputManager α)
  | [] => Except.ok m
  | (n, v) :: rest =>
    match m.set n v with
    | Except.ok m2 => m2.set_multiple rest
    | Except.error e => Except.error e

/-- First-match lookup in the value slots, as a Python dict lookup. -/
def lookup_value {α : Type} : List (String × Option α) → String → Option α
  | [], _ => none
  | (k, v) :: rest, n => if k = n then v else lookup_value rest n

/-- The value currently stored for a named output (`none` when unset). -/
def GradioOutputManager.get_value {α : Type} (m : GradioOutputManager α)
    (name : String) : Option α :=
  lookup_value m.values name

/-- Modelled from the spec: `get_tuple()` returns the stored values in
schema order (the tuple is embedded as a list). -/
def GradioOutputManager.get_tuple {α : Type} (m : GradioOutputManager α) :
    List (Option α) :=
  m.output_names.map m.get_value

/-- Modelled from the spec: `reset()` sets every value back to `None`. -/
def GradioOutputManager.reset {α : Type} (m : GradioOutputManager α) :
    GradioOutputManager α :=
  { m with values := m.values.map fun p => (p.1, none) }

/-- Well-formedness maintained by construction: the value slots are
exactly the schema names, in order. -/
def GradioOutputManager.WF {α : Type} (m : GradioOutputManager α) : Prop :=
  m.values.map Prod.fst = m.output_names

instance {α : Type} [DecidableEq α] (m : GradioOutputManager α) :
    Decidable m.WF :=
  inferInstanceAs (Decidable (_ = _))

/-- The last value a sequence of keyword assignments gives to a name, if
any. -/
def last_assigned {α : Type} (kwargs : List (String × α)) (n : String) : Option α :=
  (kwargs.reverse.find? fun p => p.1 == n).map Prod.snd

/-- The filesystem facts pipeline.sh probes before doing anything:
whether app.py and scripts/ exist in the current directory, whether the
ESCO vectorstore directory data/esco_chroma exists, and whether the
pipenv command is available. -/
structure PipelineEnv where
  app_py_exists : Bool
  scripts_dir_exists : Bool
  esco_chroma_exists : Bool
  pipenv_available : Bool

/-- Run `pipenv run python scripts/pipeline_orchestrator.py` with the
given arguments: the script's exit status becomes the shell's (set -e:
a failing orchestrator aborts the script with its status; on success the
script ends with status 0), and the invocation is recorded. -/
def run_orchestrator (orch : List String → Nat) (args : List String) :
    Nat × List (List String) :=
  (orch args, [args])

/-- Shallow embedding of pipeline.sh (src/unnamed/part_001): the guard
checks in order — repository root (app.py and scripts/), the ESCO
vectorstore, pipenv — each failing with exit 1 before the orchestrator
can run; then the argument dispatch.  The result is the script's exit
status paired with the orchestrator invocations made. -/
def pipeline_sh (env : PipelineEnv) (args : List String)
    (orch : List String → Nat) : Nat × List (List String) :=
  if !env.app_py_exists || !env.scripts_dir_exists then (1, [])
  else if !env.esco_chroma_exists then (1, [])
  else if !env.pipenv_available then (1, [])
  else if args.head? = some "--validate-only" then run_orchestrator orch []
  else if args.head? = some "--scrape" then run_orchestrator orch ("--scrape" :: args.tail)
  else if args.head? = some "--scrape-topic" then
    if (args[1]?).getD "" = "" then (1, [])
    else run_orchestrator orch ["--scrape", "--topic", (args[1]?).getD ""]
  else if args.head? = some "--scrape-platform" then
    if (args[1]?).getD "" = "" then (1, [])
    else run_orchestrator orch ["--scrape", "--platform", (args[1]?).getD ""]
  else if args.head? = some "--help" || args.head? = some "-h" then (0, [])
  else run_orchestrator orch []

/-- Appending one feedback entry for one user never shortens or reorders
any user's stored feedback log: the old log is a prefix of the new one. -/
theorem profile_log_grows_step (fs : MemoryFS)
    (uid user_id course_id feedback_type reason timestamp : String) :
    profile_log fs uid <+:
      profile_log (process_feedback fs user_id course_id feedback_type reason timestamp) uid := by
  unfold profile_log process_feedback
  cases h : load_user_profile fs user_id with
  | none => exact List.prefix_rfl
  | some p =>
      have h' : fs (profile_path user_id) = some p := h
      unfold load_user_profile save_user_profile
      dsimp only
      by_cases hp : profile_path uid = profile_path user_id
      · rw [hp, h', if_pos rfl]
        exact List.prefix_append _ _
      · rw [if_neg hp]

/-- C1: across every iteration of the feedback-driven refinement loop,
prior signal is never lost — every entry present in a profile's
`feedback_log` before any sequence of profile mutations is still present,
unchanged and in its original order, afterwards: the old log is a prefix
of the new one, so the log only grows. -/
theorem feedback_log_never_loses_entries
    (fs : MemoryFS) (steps : List FeedbackStep) (user_id : String) :
    profile_log fs user_id <+: profile_log (apply_feedback_steps fs steps) user_id := by
  induction steps generalizing fs with
  | nil => exact List.prefix_rfl
  | cons s rest ih =>
      exact (profile_log_grows_step fs user_id s.user_id s.course_id
        s.feedback_type s.reason s.timestamp).trans (ih _)

/-- C2: `process_feedback` on an existing user profile appends exactly
one structured entry — with the given course id, feedback type, reason
and timestamp — at the end of the profile's `feedback_log`, and leaves
every other profile field (user id, goal, known skills, missing skills,
preferences) unchanged. -/
theorem process_feedback_appends_one_entry
    (fs : MemoryFS) (user_id course_id feedback_type reason timestamp : String)
    (p : UserProfile)
    (h : load_user_profile fs user_id = some p) :
    ∃ p2 : UserProfile,
      load_user_profile
          (process_feedback fs user_id course_id feedback_type reason timestamp) user_id =
        some p2 ∧
      p2.feedback_log = p.feedback_log ++
        [{ course_id := course_id, feedback_type := feedback_type,
           reason := reason, timestamp := timestamp }] ∧
      p2.user_id = p.user_id ∧ p2.goal = p.goal ∧
      p2.known_skills = p.known_skills ∧ p2.missing_skills = p.missing_skills ∧
      p2.preferences = p.preferences := by
  refine ⟨{ p with feedback_log := p.feedback_log ++
    [{ course_id := course_id, feedback_type := feedback_type,
       reason := reason, timestamp := timestamp }] }, ?_, rfl, rfl, rfl, rfl, rfl, rfl⟩
  unfold process_feedback
  rw [h]
  unfold load_user_profile save_user_profile
  dsimp only
  rw [if_pos rfl]

/-- A profile fixture matching the shape of the saved
`data/memory/{user_id}.json` files. -/
def profile_example : UserProfile :=
  { user_id := "alice"
    goal := "become a team lead"
    known_skills := []
    missing_skills := []
    preferences := { style := [], format := [], avoid_styles := [] }
    feedback_log := [] }

/-- A memory filesystem holding exactly one profile file. -/
def fs_example : MemoryFS :=
  fun path => if path = profile_path "alice" then some profile_example else none

theorem process_feedback_appends_one_entry_witness :
    ∃ p2 : UserProfile,
      load_user_profile
          (process_feedback fs_example "alice" "c1" "approve" "looks good" "t0") "alice" =
        some p2 ∧
      p2.feedback_log = profile_example.feedback_log ++
        [{ course_id := "c1", feedback_type := "approve",
           reason := "looks good", timestamp := "t0" }] ∧
      p2.user_id = profile_example.user_id ∧ p2.goal = profile_example.goal ∧
      p2.known_skills = profile_example.known_skills ∧
      p2.missing_skills = profile_example.missing_skills ∧
      p2.preferences = profile_example.preferences :=
  process_feedback_appends_one_entry fs_example "alice" "c1" "approve" "looks good" "t0"
    profile_example (by rfl)

/-- C7: profile data lives only in that user's local file under
data/memory — saving a profile and processing feedback leave every other
path of the filesystem untouched, and no other storage exists in the
model. -/
theorem profile_data_stays_local
    (fs : MemoryFS) (user_id course_id feedback_type reason timestamp : String)
    (p : UserProfile) (path : String) (h : path ≠ profile_path user_id) :
    save_user_profile fs user_id p path = fs path ∧
    process_feedback fs user_id course_id feedback_type reason timestamp path = fs path := by
  constructor
  · unfold save_user_profile
    rw [if_neg h]
  · unfold process_feedback
    cases hl : load_user_profile fs user_id with
    | none => rfl
    | some q =>
        unfold save_user_profile
        dsimp only
        rw [if_neg h]

theorem profile_data_stays_local_witness :
    save_user_profile fs_example "alice" profile_example "data/memory/bob.json" =
      fs_example "data/memory/bob.json" ∧
    process_feedback fs_example "alice" "c1" "approve" "ok" "t0" "data/memory/bob.json" =
      fs_example "data/memory/bob.json" :=
  profile_data_stays_local fs_example "alice" "c1" "approve" "ok" "t0" profile_example
    "data/memory/bob.json" (by decide)

/-- C3: feedback takes effect only at batch boundaries — collecting
feedback never alters the recommendations of the current batch, and the
recommendations of a batch depend only on the stored profile at the time
the batch is produced (so feedback recorded in one cycle influences
recommendations only once retrieval and justification run again). -/
theorem feedback_affects_only_next_batch
    (sim : Course → UserProfile → Int)
    (llm : UserProfile → List Course → List (String × String))
    (courses_collection : List Course)
    (user_id course_id feedback_type reason timestamp : String)
    (top_n : Nat) (s s2 : Session) (h : s.fs = s2.fs) :
    (give_feedback user_id course_id feedback_type reason timestamp s).recommendations =
      s.recommendations ∧
    (run_batch sim llm courses_collection user_id top_n s).recommendations =
      (run_batch sim llm courses_collection user_id top_n s2).recommendations := by
  constructor
  · rfl
  · unfold run_batch
    rw [h]

/-- A similarity oracle fixture. -/
def sim_example : Course → UserProfile → Int := fun _ _ => 0

/-- An LLM oracle fixture: it names every candidate in order, each with a
justification. -/
def llm_example : UserProfile → List Course → List (String × String) :=
  fun _ courses => courses.map fun c => (c.course_id, "relevant to your goal")

/-- A session fixture over the one-profile filesystem. -/
def session_example : Session :=
  { fs := fs_example, recommendations := [] }

theorem feedback_affects_only_next_batch_witness :
    (give_feedback "alice" "c1" "approve" "ok" "t0" session_example).recommendations =
      session_example.recommendations ∧
    (run_batch sim_example llm_example [] "alice" 10 session_example).recommendations =
      (run_batch sim_example llm_example [] "alice" 10 session_example).recommendations :=
  feedback_affects_only_next_batch sim_example llm_example [] "alice" "c1" "approve" "ok" "t0"
    10 session_example session_example rfl

/-- C10: pipeline.sh exits with status 1, never invoking the pipeline
orchestrator, whenever a prerequisite is missing: not run from the
repository root (no app.py or no scripts directory), no ESCO vectorstore
at data/esco_chroma, or pipenv unavailable. -/
theorem pipeline_sh_exits_on_missing_prereq
    (env : PipelineEnv) (args : List String) (orch : List String → Nat)
    (h : env.app_py_exists = false ∨ env.scripts_dir_exists = false ∨
         env.esco_chroma_exists = false ∨ env.pipenv_available = false) :
    pipeline_sh env args orch = (1, []) := by
  obtain ⟨a, sd, ec, pv⟩ := env
  cases a <;> cases sd <;> cases ec <;> cases pv <;> simp_all [pipeline_sh]

/-- An environment with everything in place except the ESCO
vectorstore. -/
def env_no_chroma : PipelineEnv :=
  { app_py_exists := true, scripts_dir_exists := true
    esco_chroma_exists := false, pipenv_available := true }

theorem pipeline_sh_exits_on_missing_prereq_witness :
    pipeline_sh env_no_chroma ["--scrape"] (fun _ => 0) = (1, []) :=
  pipeline_sh_exits_on_missing_prereq env_no_chroma ["--scrape"] (fun _ => 0)
    (Or.inr (Or.inr (Or.inl rfl)))

/-- Dropping the score tag after tagging each element recovers the
original list. -/
theorem map_snd_pair {α : Type} (score : α → Int) (l : List α) :
    List.map (Prod.snd ∘ fun a => (score a, a)) l = l := by
  induction l with
  | nil => rfl
  | cons a t ih => simp only [List.map_cons, Function.comp_apply, ih]

/-- Ranking permutes the input list: nothing is added or dropped. -/
theorem rank_by_perm {α : Type} (score : α → Int) (l : List α) :
    (rank_by score l).Perm l := by
  have h1 := List.perm_insertionSort descFst (l.map fun a => (score a, a))
  have h2 := h1.map Prod.snd
  simpa [rank_by, List.map_map, map_snd_pair] using h2

/-- Ranking orders the list by decreasing score. -/
theorem rank_by_sorted {α : Type} (score : α → Int) (l : List α) :
    (rank_by score l).Pairwise (fun a b => score b ≤ score a) := by
  have hs : ((l.map fun a => (score a, a)).insertionSort descFst).Pairwise descFst :=
    List.sorted_insertionSort descFst _
  have hmem : ∀ p ∈ (l.map fun a => (score a, a)).insertionSort descFst, p.1 = score p.2 := by
    intro p hp
    have hp2 : p ∈ l.map fun a => (score a, a) := (List.mem_insertionSort descFst).mp hp
    obtain ⟨a, _, rfl⟩ := List.mem_map.mp hp2
    rfl
  rw [rank_by, List.pairwise_map]
  exact List.Pairwise.imp_of_mem
    (fun {p q} hp hq hpq => by
      have e1 := hmem p hp
      have e2 := hmem q hq
      simpa [descFst, e1, e2] using hpq) hs

/-- C5: `query_similar_courses` returns at most `top_n` courses, each
drawn from the course embedding store, ordered by decreasing embedding
similarity between the stored course and the profile-derived query. -/
theorem query_similar_courses_spec
    (sim : Course → UserProfile → Int) (courses_collection : List Course)
    (profile : UserProfile) (top_n : Nat) (_h : 1 ≤ top_n) :
    (query_similar_courses sim courses_collection profile top_n).length ≤ top_n ∧
    (∀ c ∈ query_similar_courses sim courses_collection profile top_n,
      c ∈ courses_collection) ∧
    (query_similar_courses sim courses_collection profile top_n).Pairwise
      (fun a b => sim b profile ≤ sim a profile) := by
  refine ⟨?_, ?_, ?_⟩
  · unfold query_similar_courses
    simp [List.length_take]
  · intro c hc
    have h1 : c ∈ rank_by (fun c => sim c profile) courses_collection :=
      (List.take_sublist _ _).subset hc
    exact (rank_by_perm _ _).mem_iff.mp h1
  · exact (rank_by_sorted _ _).sublist (List.take_sublist _ _)

/-- A course fixture. -/
def course_example : Course :=
  { course_id := "c1", title := "Leadership Fundamentals", description := "lead teams" }

theorem query_similar_courses_spec_witness :
    1 ≤ 3 ∧
    ((query_similar_courses sim_example [course_example] profile_example 3).length ≤ 3 ∧
     (∀ c ∈ query_similar_courses sim_example [course_example] profile_example 3,
       c ∈ [course_example]) ∧
     (query_similar_courses sim_example [course_example] profile_example 3).Pairwise
       (fun a b => sim_example b profile_example ≤ sim_example a profile_example)) :=
  ⟨by decide, query_similar_courses_spec sim_example [course_example] profile_example 3
    (by decide)⟩

/-- A successful taxonomy match returns one of the taxonomy's
concepts. -/
theorem match_skill_mem (skill_sim : String → Skill → Int) (taxonomy : List Skill)
    (text : String) (s : Skill)
    (h : match_skill skill_sim taxonomy text = some s) : s ∈ taxonomy := by
  unfold match_skill at h
  exact (rank_by_perm _ _).mem_iff.mp (List.mem_of_mem_head? h)

/-- C6: every skill recorded in a built user profile — each element of
`known_skills` and `missing_skills` — is a concept of the controlled ESCO
taxonomy, obtained by embedding-similarity matching against the taxonomy
store, never a free-text string taken verbatim from the user's input. -/
theorem profile_skills_come_from_taxonomy
    (skill_sim : String → Skill → Int) (taxonomy : List Skill)
    (user_id goal : String) (known_texts missing_texts : List String)
    (prefs : Preferences) (s : Skill)
    (h : s ∈ (build_user_profile skill_sim taxonomy user_id goal known_texts
        missing_texts prefs).known_skills ∨
      s ∈ (build_user_profile skill_sim taxonomy user_id goal known_texts
        missing_texts prefs).missing_skills) :
    s ∈ taxonomy := by
  simp only [build_user_profile] at h
  rcases h with h | h
  all_goals
    obtain ⟨t, _, hm⟩ := List.mem_filterMap.mp h
    exact match_skill_mem skill_sim taxonomy t s hm

/-- An ESCO taxonomy concept fixture. -/
def skill_example : Skill :=
  { conceptUri := "http://data.europa.eu/esco/skill/ccd0a1d9"
    preferredLabel := "Python (computer programming)"
    description := "N/A" }

/-- A skill-similarity oracle fixture. -/
def skill_sim_example : String → Skill → Int := fun _ _ => 0

/-- Preference fixture. -/
def prefs_example : Preferences := { style := [], format := [], avoid_styles := [] }

theorem profile_skills_come_from_taxonomy_witness :
    (skill_example ∈ (build_user_profile skill_sim_example [skill_example] "alice" "grow"
        ["python"] [] prefs_example).known_skills ∨
      skill_example ∈ (build_user_profile skill_sim_example [skill_example] "alice" "grow"
        ["python"] [] prefs_example).missing_skills) ∧
    skill_example ∈ [skill_example] :=
  ⟨by decide, profile_skills_come_from_taxonomy skill_sim_example [skill_example] "alice"
    "grow" ["python"] [] prefs_example skill_example (by decide)⟩

/-- Filtering out an element that is actually present strictly shrinks a
list. -/
theorem length_filter_lt_of_mem {α : Type} (p : α → Bool) (l : List α) (x : α)
    (hx : x ∈ l) (hpx : p x = false) : (l.filter p).length < l.length := by
  induction l with
  | nil => cases hx
  | cons a t ih =>
      rcases List.mem_cons.mp hx with rfl | hxt
      · have h1 := List.length_filter_le p t
        simp [List.filter_cons, hpx]
        omega
      · cases hpa : p a
        · have h1 := List.length_filter_le p t
          simp [List.filter_cons, hpa]
          omega
        · have h1 := ih hxt
          simp [List.filter_cons, hpa]
          omega

/-- Soundness of the ranked selection: the result is never longer than
the candidate list, and every returned item names a candidate course and
carries a justification from the LLM's output. -/
theorem select_ranked_sound :
    ∀ (pairs : List (String × String)) (courses : List Course),
      (select_ranked courses pairs).length ≤ courses.length ∧
      ∀ r ∈ select_ranked courses pairs,
        (∃ c ∈ courses, r.course_id = c.course_id ∧ r.title = c.title) ∧
        (r.course_id, r.justification) ∈ pairs := by
  intro pairs
  induction pairs with
  | nil =>
      intro courses
      constructor
      · simp [select_ranked]
      · intro r hr
        simp [select_ranked] at hr
  | cons pr rest ih =>
      intro courses
      obtain ⟨cid, just⟩ := pr
      cases hf : courses.find? (fun c => c.course_id == cid) with
      | none =>
          have hs : select_ranked courses ((cid, just) :: rest) =
              select_ranked courses rest := by
            simp only [select_ranked, hf]
          rw [hs]
          refine ⟨(ih courses).1, ?_⟩
          intro r hr
          obtain ⟨hc, hp⟩ := (ih courses).2 r hr
          exact ⟨hc, List.mem_cons_of_mem _ hp⟩
      | some c =>
          have hcmem : c ∈ courses := List.mem_of_find?_eq_some hf
          have hcid : c.course_id = cid := by
            have hb := List.find?_some hf
            exact eq_of_beq hb
          have hs : select_ranked courses ((cid, just) :: rest) =
              { course_id := c.course_id, title := c.title, justification := just } ::
                select_ranked (courses.filter fun c2 => !(c2.course_id == cid)) rest := by
            simp only [select_ranked, hf]
          have hlt : (courses.filter fun c2 => !(c2.course_id == cid)).length <
              courses.length := by
            apply length_filter_lt_of_mem _ _ c hcmem
            simp [hcid]
          rw [hs]
          constructor
          · have h1 := (ih (courses.filter fun c2 => !(c2.course_id == cid))).1
            simp only [List.length_cons]
            omega
          · intro r hr
            rcases List.mem_cons.mp hr with rfl | hr2
            · refine ⟨⟨c, hcmem, rfl, rfl⟩, ?_⟩
              rw [hcid]
              exact List.mem_cons_self _ _
            · obtain ⟨⟨c2, hc2, he⟩, hp⟩ :=
                (ih (courses.filter fun c2 => !(c2.course_id == cid))).2 r hr2
              exact ⟨⟨c2, List.mem_of_mem_filter hc2, he⟩, List.mem_cons_of_mem _ hp⟩

/-- C4: for every profile and non-empty candidate list,
`justify_recommendations` returns a ranked, explained subset of the
candidates: each returned item's course id identifies a course from the
input candidates, each item's justification comes from the LLM's output
for it, and the result has no more items than the input. -/
theorem justify_recommendations_spec
    (llm : UserProfile → List Course → List (String × String))
    (profile : UserProfile) (retrieved_courses : List Course)
    (_hne : retrieved_courses ≠ []) :
    (justify_recommendations llm profile retrieved_courses).length ≤
      retrieved_courses.length ∧
    ∀ r ∈ justify_recommendations llm profile retrieved_courses,
      (∃ c ∈ retrieved_courses, r.course_id = c.course_id ∧ r.title = c.title) ∧
      (r.course_id, r.justification) ∈ llm profile retrieved_courses := by
  unfold justify_recommendations
  exact select_ranked_sound (llm profile retrieved_courses) retrieved_courses

theorem justify_recommendations_spec_witness :
    ([course_example] : List Course) ≠ [] ∧
    ((justify_recommendations llm_example profile_example [course_example]).length ≤
      ([course_example] : List Course).length ∧
    ∀ r ∈ justify_recommendations llm_example profile_example [course_example],
      (∃ c ∈ [course_example], r.course_id = c.course_id ∧ r.title = c.title) ∧
      (r.course_id, r.justification) ∈ llm_example profile_example [course_example]) :=
  ⟨by decide, justify_recommendations_spec llm_example profile_example [course_example]
    (by decide)⟩


/-- The manager produced by a successful `set`: only the slot of the
given name holds the new value. -/
def set_upd {α : Type} (m : GradioOutputManager α) (name : String) (v : α) :
    GradioOutputManager α :=
  { m with values := m.values.map fun p => if p.1 = name then (p.1, some v) else p }

theorem set_ok_of_mem {α : Type} (m : GradioOutputManager α) (name : String) (v : α)
    (h : name ∈ m.output_names) : m.set name v = Except.ok (set_upd m name v) := by
  unfold GradioOutputManager.set set_upd
  rw [if_pos h]

theorem set_error_of_not_mem {α : Type} (m : GradioOutputManager α) (name : String) (v : α)
    (h : name ∉ m.output_names) :
    m.set name v = Except.error ("Unknown output name: " ++ name) := by
  unfold GradioOutputManager.set
  rw [if_neg h]

theorem set_ok_names {α : Type} {m m2 : GradioOutputManager α} {name : String} {v : α}
    (h : m.set name v = Except.ok m2) : m2.output_names = m.output_names := by
  by_cases hn : name ∈ m.output_names
  · rw [set_ok_of_mem m name v hn] at h
    cases h
    rfl
  · rw [set_error_of_not_mem m name v hn] at h
    cases h

/-- Updating a slot does not change the names of the slots. -/
theorem upd_map_fst {α : Type} (values : List (String × Option α)) (name : String) (v : α) :
    (values.map fun p => if p.1 = name then (p.1, some v) else p).map Prod.fst =
      values.map Prod.fst := by
  induction values with
  | nil => rfl
  | cons q t ih => by_cases hq : q.1 = name <;> simp [hq, ih]

theorem set_upd_WF {α : Type} (m : GradioOutputManager α) (name : String) (v : α)
    (hwf : m.WF) : (set_upd m name v).WF := by
  unfold GradioOutputManager.WF set_upd at *
  dsimp only
  rw [upd_map_fst]
  exact hwf

theorem lookup_upd_self {α : Type} (values : List (String × Option α)) (name : String) (v : α)
    (h : name ∈ values.map Prod.fst) :
    lookup_value (values.map fun p => if p.1 = name then (p.1, some v) else p) name =
      some v := by
  induction values with
  | nil => simp at h
  | cons q t ih =>
      by_cases hq : q.1 = name
      · simp only [List.map_cons, if_pos hq]
        simp only [lookup_value]
        rw [if_pos hq]
      · simp only [List.map_cons, List.mem_cons] at h
        rcases h with rfl | ht
        · exact absurd rfl hq
        · simp only [List.map_cons, if_neg hq]
          simp only [lookup_value, if_neg hq]
          exact ih ht

theorem lookup_upd_ne {α : Type} (values : List (String × Option α)) (name n : String) (v : α)
    (hne : n ≠ name) :
    lookup_value (values.map fun p => if p.1 = name then (p.1, some v) else p) n =
      lookup_value values n := by
  induction values with
  | nil => rfl
  | cons q t ih =>
      by_cases hq : q.1 = name
      · have hqn : q.1 ≠ n := by
          rw [hq]
          exact Ne.symm hne
        simp only [List.map_cons, if_pos hq]
        simp only [lookup_value, if_neg hqn]
        exact ih
      · simp only [List.map_cons, if_neg hq]
        by_cases hqn : q.1 = n
        · simp only [lookup_value, if_pos hqn]
        · simp only [lookup_value, if_neg hqn]
          exact ih

theorem upd_get_value_self {α : Type} (m : GradioOutputManager α) (name : String) (v : α)
    (hwf : m.WF) (hn : name ∈ m.output_names) :
    (set_upd m name v).get_value name = some v := by
  unfold GradioOutputManager.get_value set_upd
  dsimp only
  apply lookup_upd_self
  rw [hwf]
  exact hn

theorem upd_get_value_ne {α : Type} (m : GradioOutputManager α) (name n : String) (v : α)
    (hne : n ≠ name) : (set_upd m name v).get_value n = m.get_value n := by
  unfold GradioOutputManager.get_value set_upd
  dsimp only
  exact lookup_upd_ne m.values name n v hne

/-- `set_multiple` raises exactly when one of its keywords is not a
schema name. -/
theorem set_multiple_error_iff {α : Type} :
    ∀ (kwargs : List (String × α)) (m : GradioOutputManager α),
      (∃ e, m.set_multiple kwargs = Except.error e) ↔
        ∃ p ∈ kwargs, p.1 ∉ m.output_names := by
  intro kwargs
  induction kwargs with
  | nil =>
      intro m
      simp [GradioOutputManager.set_multiple]
  | cons pr rest ih =>
      intro m
      obtain ⟨n, v⟩ := pr
      by_cases hn : n ∈ m.output_names
      · have hset := set_ok_of_mem m n v hn
        have hstep : m.set_multiple ((n, v) :: rest) = (set_upd m n v).set_multiple rest := by
          simp only [GradioOutputManager.set_multiple, hset]
        rw [hstep, ih]
        constructor
        · rintro ⟨p, hp, hpn⟩
          refine ⟨p, List.mem_cons_of_mem _ hp, ?_⟩
          exact fun hmem => hpn ((set_ok_names hset).symm ▸ hmem)
        · rintro ⟨p, hp, hpn⟩
          rcases List.mem_cons.mp hp with rfl | hp2
          · exact absurd hn hpn
          · exact ⟨p, hp2, fun hmem => hpn ((set_ok_names hset) ▸ hmem)⟩
      · have hset := set_error_of_not_mem m n v hn
        have hstep : m.set_multiple ((n, v) :: rest) =
            Except.error ("Unknown output name: " ++ n) := by
          simp only [GradioOutputManager.set_multiple, hset]
        rw [hstep]
        constructor
        · intro _
          exact ⟨(n, v), List.mem_cons_self _ _, hn⟩
        · intro _
          exact ⟨_, rfl⟩

/-- C8: `set` — and each keyword of `set_multiple` — raises `ValueError`
if and only if the name is not in the schema given at construction; the
manager value is modified only through the `ok` result (so the stored
values are unchanged on error), and a successful `set` updates exactly
the named slot. -/
theorem gradio_set_validates_names {α : Type} (m : GradioOutputManager α) (hwf : m.WF)
    (name : String) (value : α) (kwargs : List (String × α)) :
    ((∃ e, m.set name value = Except.error e) ↔ name ∉ m.output_names) ∧
    ((∃ e, m.set_multiple kwargs = Except.error e) ↔ ∃ p ∈ kwargs, p.1 ∉ m.output_names) ∧
    ∀ m2, m.set name value = Except.ok m2 →
      m2.output_names = m.output_names ∧ m2.WF ∧
      m2.get_value name = some value ∧
      ∀ n, n ≠ name → m2.get_value n = m.get_value n := by
  refine ⟨?_, set_multiple_error_iff kwargs m, ?_⟩
  · by_cases hn : name ∈ m.output_names
    · rw [set_ok_of_mem m name value hn]
      simp [hn]
    · rw [set_error_of_not_mem m name value hn]
      simp [hn]
  · intro m2 h
    by_cases hn : name ∈ m.output_names
    · rw [set_ok_of_mem m name value hn] at h
      cases h
      exact ⟨rfl, set_upd_WF m name value hwf, upd_get_value_self m name value hwf hn,
        fun n hne => upd_get_value_ne m name n value hne⟩
    · rw [set_error_of_not_mem m name value hn] at h
      cases h

/-- A two-output schema fixture from the documented `FEEDBACK_OUTPUTS`
names. -/
def gm_example : GradioOutputManager Nat :=
  GradioOutputManager.init ["recommendations", "keep_btn"]

theorem gradio_set_validates_names_witness :
    gm_example.WF ∧
    (((∃ e, gm_example.set "recommendations" 7 = Except.error e) ↔
        "recommendations" ∉ gm_example.output_names) ∧
    ((∃ e, gm_example.set_multiple [("nope", 1)] = Except.error e) ↔
        ∃ p ∈ [(("nope" : String), 1)], p.1 ∉ gm_example.output_names) ∧
    ∀ m2, gm_example.set "recommendations" 7 = Except.ok m2 →
      m2.output_names = gm_example.output_names ∧ m2.WF ∧
      m2.get_value "recommendations" = some 7 ∧
      ∀ n, n ≠ "recommendations" → m2.get_value n = gm_example.get_value n) :=
  ⟨by decide, gradio_set_validates_names gm_example (by decide) "recommendations" 7
    [("nope", 1)]⟩

/-- A freshly constructed manager has every output unset. -/
theorem init_get_value {α : Type} (schema : List String) (n : String) :
    (GradioOutputManager.init (α := α) schema).get_value n = none := by
  unfold GradioOutputManager.init GradioOutputManager.get_value
  dsimp only
  induction schema with
  | nil => rfl
  | cons s t ih =>
      by_cases hs : s = n
      · simp only [List.map_cons, lookup_value, if_pos hs]
      · simp only [List.map_cons, lookup_value, if_neg hs]
        exact ih

theorem init_WF {α : Type} (schema : List String) :
    (GradioOutputManager.init (α := α) schema).WF := by
  show (schema.map fun n => (n, (none : Option α))).map Prod.fst = schema
  induction schema with
  | nil => rfl
  | cons s t ih => simp only [List.map_cons, ih]

/-- After `reset` every output reads as unset. -/
theorem reset_get_value {α : Type} (m : GradioOutputManager α) (n : String) :
    m.reset.get_value n = none := by
  unfold GradioOutputManager.reset GradioOutputManager.get_value
  dsimp only
  induction m.values with
  | nil => rfl
  | cons q t ih =>
      by_cases hq : q.1 = n
      · simp only [List.map_cons, lookup_value, if_pos hq]
      · simp only [List.map_cons, lookup_value, if_neg hq]
        exact ih

/-- Unfolding of `last_assigned` over one leading assignment. -/
theorem last_assigned_cons {α : Type} (n nm : String) (v : α) (rest : List (String × α)) :
    last_assigned ((nm, v) :: rest) n =
      match last_assigned rest n with
      | some w => some w
      | none => if nm == n then some v else none := by
  unfold last_assigned
  rw [List.reverse_cons, List.find?_append]
  cases hf : rest.reverse.find? fun p => p.1 == n
  · cases hn : nm == n <;> simp [List.find?_cons, hn, Option.or]
  · simp [Option.or]

/-- Running `set_multiple` over valid keywords succeeds, and afterwards
every name reads as the last value assigned to it, previous values
surviving for untouched names. -/
theorem set_multiple_get_value {α : Type} :
    ∀ (kwargs : List (String × α)) (m : GradioOutputManager α), m.WF →
      (∀ p ∈ kwargs, p.1 ∈ m.output_names) →
      ∃ m2, m.set_multiple kwargs = Except.ok m2 ∧ m2.WF ∧
        m2.output_names = m.output_names ∧
        ∀ n, m2.get_value n =
          match last_assigned kwargs n with
          | some v => some v
          | none => m.get_value n := by
  intro kwargs
  induction kwargs with
  | nil =>
      intro m hwf _
      refine ⟨m, rfl, hwf, rfl, fun n => ?_⟩
      simp [last_assigned]
  | cons pr rest ih =>
      intro m hwf hall
      obtain ⟨nm, v⟩ := pr
      have hn : nm ∈ m.output_names := hall (nm, v) (List.mem_cons_self _ _)
      have hset := set_ok_of_mem m nm v hn
      have hall1 : ∀ p ∈ rest, p.1 ∈ (set_upd m nm v).output_names := by
        intro p hp
        exact hall p (List.mem_cons_of_mem _ hp)
      obtain ⟨m2, hrun, hwf2, hnames2, hval⟩ :=
        ih (set_upd m nm v) (set_upd_WF m nm v hwf) hall1
      refine ⟨m2, ?_, hwf2, hnames2, ?_⟩
      · simp only [GradioOutputManager.set_multiple, hset]
        exact hrun
      · intro n
        rw [hval n, last_assigned_cons]
        cases hla : last_assigned rest n
        · by_cases hnn : n = nm
          · subst hnn
            rw [upd_get_value_self m n v hwf hn]
            have : (n == n) = true := beq_self_eq_true n
            simp [this]
          · rw [upd_get_value_ne m nm n v hnn]
            have : (nm == n) = false := beq_eq_false_iff_ne.mpr (Ne.symm hnn)
            simp [this]
        · rfl

/-- C9: for every schema and every sequence of successful assignments,
`get_tuple` has one component per schema name, in schema order; the i-th
component is the last value assigned to the i-th schema name (`none` for
a name never set), independent of the order in which the outputs were
set; and after `reset` every component is `none` again. -/
theorem gradio_get_tuple_spec {α : Type} (schema : List String)
    (kwargs : List (String × α)) (h : ∀ p ∈ kwargs, p.1 ∈ schema) :
    ∃ m2, (GradioOutputManager.init (α := α) schema).set_multiple kwargs = Except.ok m2 ∧
      m2.get_tuple.length = schema.length ∧
      (∀ i : Nat, m2.get_tuple[i]? = (schema[i]?).map (last_assigned kwargs)) ∧
      m2.reset.get_tuple = schema.map fun _ => none := by
  obtain ⟨m2, hrun, hwf2, hnames2, hval⟩ :=
    set_multiple_get_value kwargs (GradioOutputManager.init schema) (init_WF schema) h
  have hnames : m2.output_names = schema := hnames2
  have hget : ∀ n, m2.get_value n = last_assigned kwargs n := by
    intro n
    rw [hval n, init_get_value]
    cases last_assigned kwargs n <;> rfl
  refine ⟨m2, hrun, ?_, ?_, ?_⟩
  · unfold GradioOutputManager.get_tuple
    rw [hnames, List.length_map]
  · intro i
    unfold GradioOutputManager.get_tuple
    rw [hnames, List.getElem?_map]
    cases hsi : schema[i]?
    · rfl
    · simp [hget]
  · have hfun : m2.reset.get_value = fun _ => (none : Option α) :=
      funext fun n => reset_get_value m2 n
    unfold GradioOutputManager.get_tuple
    rw [hfun]
    have hrn : m2.reset.output_names = schema := hnames
    rw [hrn]

theorem gradio_get_tuple_spec_witness :
    (∀ p ∈ [(("keep_btn" : String), 1), (("recommendations" : String), 2)],
      p.1 ∈ ["recommendations", "keep_btn"]) ∧
    ∃ m2, (GradioOutputManager.init (α := Nat)
        ["recommendations", "keep_btn"]).set_multiple
          [("keep_btn", 1), ("recommendations", 2)] = Except.ok m2 ∧
      m2.get_tuple.length = (["recommendations", "keep_btn"] : List String).length ∧
      (∀ i : Nat, m2.get_tuple[i]? = ((["recommendations", "keep_btn"] : List String)[i]?).map
        (last_assigned [("keep_btn", 1), ("recommendations", 2)])) ∧
      m2.reset.get_tuple = (["recommendations", "keep_btn"] : List String).map fun _ => none :=
  ⟨by decide, gradio_get_tuple_spec ["recommendations", "keep_btn"]
    [("keep_btn", 1), ("recommendations", 2)] (by decide)⟩
